import Mathlib

/-!
Verification development for the thrash motion-canvas 3D scene library.

Shallow embedding of the core components:
* `src/thrash-library/src/thrash/utils/vectors.ts` — vector coercion;
* `src/thrash-library/src/thrash/wrappers/ObjectWrapper.tsx` — eased tween
  animation primitives (position / scale / select);
* `src/thrash-library/src/thrash/wrappers/CameraWrapper.tsx` — zoom and orbit;
* `src/thrash-library/src/thrash/utils/Loader.tsx` — cached asset loading;
* the FrameCache module (keyed snapshot store with generated ids);
* `src/thrash-library/src/thrash/utils/importScene.tsx` — the scene importer.

JavaScript numbers are modelled as exact rationals (`ℚ`) wherever the code
performs only field arithmetic, and as reals (`ℝ`) where trigonometry is
involved (the orbit math).  Fields of the source data that no verified
property depends on (colors, intensities, transform matrices, segment
counts) are omitted from the embedding.
-/

/-- Vectors with three components, the embedding of three.js `Vector3`
(only the component data; methods are modelled as standalone functions). -/
structure V3 (α : Type) where
  x : α
  y : α
  z : α
deriving DecidableEq, Repr

/-- Componentwise addition, as three.js `Vector3.add`. -/
def V3.add {α : Type} [Add α] (a b : V3 α) : V3 α :=
  ⟨a.x + b.x, a.y + b.y, a.z + b.z⟩

/-- Componentwise subtraction, as three.js `Vector3.sub`. -/
def V3.sub {α : Type} [Sub α] (a b : V3 α) : V3 α :=
  ⟨a.x - b.x, a.y - b.y, a.z - b.z⟩

/-- Componentwise product, as three.js `Vector3.multiply`. -/
def V3.mul {α : Type} [Mul α] (a b : V3 α) : V3 α :=
  ⟨a.x * b.x, a.y * b.y, a.z * b.z⟩

/-- Componentwise quotient, as three.js `Vector3.divide`. -/
def V3.div {α : Type} [Div α] (a b : V3 α) : V3 α :=
  ⟨a.x / b.x, a.y / b.y, a.z / b.z⟩

/-- Linear interpolation `a + (b - a) * t` componentwise, the embedding of
three.js `Vector3.lerpVectors`. -/
def V3.lerpVectors {α : Type} [Add α] [Sub α] [Mul α] (a b : V3 α) (t : α) : V3 α :=
  ⟨a.x + (b.x - a.x) * t, a.y + (b.y - a.y) * t, a.z + (b.z - a.z) * t⟩

/-- Zero vector, the result of the three.js `new Vector3()` constructor. -/
def V3.zero : V3 ℚ := ⟨0, 0, 0⟩

/-- JavaScript values acceptable where the library expects a
`PossibleVector3` (`src/thrash-library/src/thrash/utils/vectors.ts`):
a number, a `Vector3` instance, an array (of numbers, of any length), or a
value that is none of these (`jsNull` models `null`/`undefined`, `jsObj`
models an arbitrary non-`Vector3`, non-array object). -/
inductive PV where
  | num (q : ℚ)
  | vec (v : V3 ℚ)
  | arr (xs : List ℚ)
  | jsNull
  | jsObj
deriving DecidableEq, Repr

/-- Embedding of `getVector3` from
`src/thrash-library/src/thrash/utils/vectors.ts` lines 5-10:
a number spreads to all three components, a `Vector3` passes through, an
array of exactly three elements becomes a vector, and anything else falls
through to `new Vector3()`, the zero vector. -/
def getVector3 : PV → V3 ℚ
  | .num q => ⟨q, q, q⟩
  | .vec v => v
  | .arr xs => if h : xs.length = 3 then ⟨xs[0], xs[1], xs[2]⟩ else V3.zero
  | .jsNull => V3.zero
  | .jsObj => V3.zero

/-- Classifier for the three coercible input shapes of `getVector3`:
a number, a `Vector3`, or an array of exactly three elements. -/
def PV.coercible : PV → Bool
  | .num _ => true
  | .vec _ => true
  | .arr xs => xs.length = 3
  | .jsNull => false
  | .jsObj => false

/-- Embedding of `easeInOutCubic` from the host animation framework
(`@motion-canvas/core`), the default easing of every wrapper primitive:
`t < 0.5 ? 4t^3 : 1 - (-2t + 2)^3 / 2`. -/
def easeInOutCubicQ (t : ℚ) : ℚ :=
  if t < 1 / 2 then 4 * t ^ 3 else 1 - (-2 * t + 2) ^ 3 / 2

/-- Position of the wrapped object at eased tween fraction `u` during
`ObjectWrapper.position` (`ObjectWrapper.tsx` lines 48-55): the start is the
position cloned at invocation, the target is `getVector3(next)`, and each
step sets the position to `lerpVectors start target (ease u)`. -/
def positionAt (start : V3 ℚ) (next : PV) (ease : ℚ → ℚ) (u : ℚ) : V3 ℚ :=
  V3.lerpVectors start (getVector3 next) (ease u)

/-- Scale of the wrapped object at eased tween fraction `u` during
`ObjectWrapper.scale` (`ObjectWrapper.tsx` lines 109-116), same lerp shape
as `position` but on the scale vector. -/
def scaleAt (start : V3 ℚ) (next : PV) (ease : ℚ → ℚ) (u : ℚ) : V3 ℚ :=
  V3.lerpVectors start (getVector3 next) (ease u)

/-- Final scale after `ObjectWrapper.scalemul` completes
(`ObjectWrapper.tsx` lines 121-125): the target is the scale at invocation
multiplied componentwise by `getVector3 factors`, reached at fraction 1. -/
def scalemulFinal (s : V3 ℚ) (factors : PV) (ease : ℚ → ℚ) : V3 ℚ :=
  scaleAt s (.vec (V3.mul s (getVector3 factors))) ease 1

/-- Final scale after `ObjectWrapper.scalediv` completes
(`ObjectWrapper.tsx` lines 128-132): the target is the scale at invocation
divided componentwise by `getVector3 factors`, reached at fraction 1. -/
def scaledivFinal (s : V3 ℚ) (factors : PV) (ease : ℚ → ℚ) : V3 ℚ :=
  scaleAt s (.vec (V3.div s (getVector3 factors))) ease 1

/-- Final scale after `ObjectWrapper.select` completes
(`ObjectWrapper.tsx` lines 134-137): a `scalemul` by the scalar amount run
to completion, then a `scalediv` by the same amount run to completion. -/
def selectFinal (s : V3 ℚ) (amount : ℚ) (ease1 ease2 : ℚ → ℚ) : V3 ℚ :=
  scaledivFinal (scalemulFinal s (.num amount) ease1) (.num amount) ease2

/-- Camera state relevant to `zoom`: the current field of view and the
field of view from which the projection matrix was last derived
(`updateProjectionMatrix` recomputes the matrix from the current `fov`). -/
structure Cam where
  fov : ℚ
  projFovBasis : ℚ
deriving DecidableEq, Repr

/-- Embedding of three.js `updateProjectionMatrix`: re-derives the
projection matrix from the camera's current field of view. -/
def updateProjectionMatrix (c : Cam) : Cam :=
  { c with projFovBasis := c.fov }

/-- Clamp applied by `PerspectiveCameraWrapper.zoom`
(`CameraWrapper.tsx` line 10): `Math.max(1, Math.min(179, fov))`. -/
def zoomClamp (fov : ℚ) : ℚ := max 1 (min 179 fov)

/-- Camera state at eased tween fraction `u` during
`PerspectiveCameraWrapper.zoom` (`CameraWrapper.tsx` lines 7-17): the start
fov is captured at invocation, the target is the clamped request, each step
sets `fov = start + (target - start) * ease(u)` and then calls
`updateProjectionMatrix`. -/
def zoomAt (c : Cam) (fov : ℚ) (ease : ℚ → ℚ) (u : ℚ) : Cam :=
  updateProjectionMatrix
    { c with fov := c.fov + (zoomClamp fov - c.fov) * ease u }

/-- Real-valued `easeInOutCubic`, used inside the orbit tween. -/
noncomputable def easeInOutCubicR (t : ℝ) : ℝ :=
  if t < 1 / 2 then 4 * t ^ 3 else 1 - (-2 * t + 2) ^ 3 / 2

/-- Real-valued `easeInSine` from the host framework: `1 - cos(tπ/2)`. -/
noncomputable def easeInSineR (t : ℝ) : ℝ :=
  1 - Real.cos (t * Real.pi / 2)

/-- Real-valued `easeOutSine` from the host framework: `sin(tπ/2)`. -/
noncomputable def easeOutSineR (t : ℝ) : ℝ :=
  Real.sin (t * Real.pi / 2)

/-- JavaScript `Math.atan2 y x`, the angle of the point `(x, y)`:
modelled as the argument of the complex number `x + y·i`. -/
noncomputable def atan2 (y x : ℝ) : ℝ := Complex.arg ⟨x, y⟩

/-- Length of a real vector, three.js `Vector3.length`. -/
noncomputable def V3.length (v : V3 ℝ) : ℝ :=
  Real.sqrt (v.x ^ 2 + v.y ^ 2 + v.z ^ 2)

/-- JavaScript `Math.hypot x z`. -/
noncomputable def hypot (x z : ℝ) : ℝ := Real.sqrt (x ^ 2 + z ^ 2)

/-- Orbit center resolution (`CameraWrapper.tsx` lines 43-45): prefer the
explicit parameter, else the last remembered look target, else the origin. -/
def orbitCenter (center remembered : Option (V3 ℝ)) : V3 ℝ :=
  center.getD (remembered.getD ⟨0, 0, 0⟩)

/-- Data of a running `orbit` animation: its total duration and, for each
raw tween fraction `u ∈ [0,1]`, the camera position and field of view the
tween callback writes at that step. -/
structure OrbitRun where
  duration : ℝ
  posAt : ℝ → V3 ℝ
  fovAt : ℝ → ℝ

/-- Embedding of `PerspectiveCameraWrapper.orbit`
(`CameraWrapper.tsx` lines 35-87).  `pos0` is the camera position and `fov`
its field of view at invocation, `ctr` the resolved orbit center.  The
relative start vector is `rel0 = pos0 - ctr`; when its length is zero the
generator returns immediately (`none`, a no-op).  Otherwise the horizontal
radius is `hypot rel0.x rel0.z`, the fixed height offset is `rel0.y`, the
starting azimuth is `atan2 rel0.z rel0.x`, the total duration is
`lap_time * |angle_offset| / 2π`, and each step at raw fraction `u` places
the camera at azimuth `theta0 + angle_offset * t` (with `t` the clamped
eased fraction) on the horizontal circle around `ctr`, applying a cosmetic
field-of-view breathing offset of amplitude 5. -/
noncomputable def orbit (pos0 : V3 ℝ) (fov : ℝ) (lap_time angle_offset : ℝ)
    (ctr : V3 ℝ) : Option OrbitRun :=
  let rel0 := V3.sub pos0 ctr
  let rTot := rel0.length
  if rTot = 0 then none
  else
    let rXZ := hypot rel0.x rel0.z
    let y0 := rel0.y
    let theta0 := atan2 rel0.z rel0.x
    some
      { duration := lap_time * |angle_offset| / (2 * Real.pi)
        posAt := fun u =>
          let t : ℝ := if u ≤ 0 then 0 else if 1 ≤ u then 1 else easeInOutCubicR u
          let theta := theta0 + angle_offset * t
          ⟨ctr.x + rXZ * Real.cos theta, ctr.y + y0, ctr.z + rXZ * Real.sin theta⟩
        fovAt := fun u =>
          let fovOffset : ℝ :=
            if u ≤ 1 / 2 then -easeInSineR (u * 2) * 5
            else -5 + easeOutSineR (u * 2 - 1) * 5
          fov + fovOffset }

/-- Lookup in an insertion-ordered map where a later `set` for the same key
overwrites the earlier one (JavaScript `Map.get` / object property read). -/
def mapGet {α : Type} (m : List (String × α)) (k : String) : Option α :=
  (m.reverse.find? (fun p => p.1 = k)).map (fun p => p.2)

/-- Map update: JavaScript `Map.set` / object property write, modelled as
appending the binding (`mapGet` takes the last matching one). -/
def mapSet {α : Type} (m : List (String × α)) (k : String) (v : α) :
    List (String × α) :=
  m ++ [(k, v)]

/-- State of a `Loader` instance together with its module-level caches
(`src/thrash-library/src/thrash/utils/Loader.tsx`).  `cache` is the
module-level `CACHE_GLTF` table (resources are identified by numeric ids),
`toload` the outstanding-request counter, `fetches` the external fetches
issued so far (path and callback id, in issue order), `deferred` the
callbacks scheduled via `setTimeout` for cache hits (callback id and the
resource it will receive), and `delivered` the callbacks already invoked
directly by a loader completion handler. -/
structure LoaderSt where
  cache : List (String × ℕ)
  toload : ℤ
  fetches : List (String × ℕ)
  deferred : List (ℕ × ℕ)
  delivered : List (ℕ × ℕ)
deriving DecidableEq, Repr

/-- Loader state before any call: empty caches, zero counter. -/
def LoaderSt.empty : LoaderSt := ⟨[], 0, [], [], []⟩

/-- Embedding of `Loader.loadGLTF` (`Loader.tsx` lines 30-58) as observed at
call time.  Cache hit: schedule the callback on the next tick with the
cached resource and return, issuing nothing.  Cache miss: increment the
outstanding counter and issue an external fetch for the path. -/
def loadGLTF (path : String) (cb : ℕ) (st : LoaderSt) : LoaderSt :=
  match mapGet st.cache path with
  | some r => { st with deferred := st.deferred ++ [(cb, r)] }
  | none =>
      { st with
          toload := st.toload + 1
          fetches := st.fetches ++ [(path, cb)] }

/-- Success handler closed over a fetch issued by `loadGLTF`
(`Loader.tsx` lines 42-48): store the resource in the cache, decrement the
outstanding counter, invoke the requesting callback with the resource. -/
def fetchSuccess (path : String) (cb : ℕ) (res : ℕ) (st : LoaderSt) : LoaderSt :=
  { st with
      cache := mapSet st.cache path res
      toload := st.toload - 1
      delivered := st.delivered ++ [(cb, res)] }

/-- Error handler of a fetch issued by `loadGLTF` (`Loader.tsx` lines
52-55): decrement the outstanding counter clamped at zero, log, no retry. -/
def fetchError (st : LoaderSt) : LoaderSt :=
  { st with toload := max 0 (st.toload - 1) }

/-- Embedding of `Loader.isLoading` (`Loader.tsx` line 92). -/
def isLoading (st : LoaderSt) : Bool := st.toload > 0

/-- Number of external fetches issued so far for a given path. -/
def fetchCount (st : LoaderSt) (path : String) : ℕ :=
  (st.fetches.filter (fun p => p.1 = path)).length

/-- Decimal rendering of a counter value as a list of characters, the
`${this.counter}` interpolation inside `FrameCache.createId`: most
significant digit first, each digit mapped to its ASCII character. -/
def renderNat (n : ℕ) : List Char :=
  ((Nat.digits 10 n).reverse).map (fun d => Char.ofNat (48 + d))

/-- Embedding of `FrameCache.createId` (FrameCache module lines 11-14) for
counter value `n` (the counter has just been incremented to `n`): the
returned id is the template string `${prefix}-${n}`. -/
def createIdStr (pfx : List Char) (n : ℕ) : List Char :=
  pfx ++ '-' :: renderNat n

/-- Ids returned by a finite sequence of `createId` calls with the given
prefixes, starting from counter value `c` (the call increments the counter
before rendering, so call `k` in the sequence uses counter `c + k + 1`). -/
def runCreateIds (c : ℕ) : List (List Char) → List (List Char)
  | [] => []
  | p :: rest => createIdStr p (c + 1) :: runCreateIds (c + 1) rest

/-- Geometry kinds the importer supports (`importScene.tsx` lines 44-81):
`BoxGeometry` and `SphereGeometry`; any other type is skipped. -/
inductive GeomKind where
  | box
  | sphere
deriving DecidableEq, Repr

/-- Entry of the document's `geometries` array; only the fields that the
table construction branches on (`uuid`, `type`). -/
structure JGeom where
  uuid : Option String
  gtype : Option String
deriving DecidableEq, Repr

/-- JavaScript truthiness of an optional string field: `undefined` and the
empty string are falsy. -/
def jsTruthyStr (s : Option String) : Bool :=
  match s with
  | some t => t ≠ ""
  | none => false

/-- Embedding of the geometry-table construction
(`importScene.tsx` lines 45-81): entries with a falsy `uuid` or `type` are
skipped, `BoxGeometry` and `SphereGeometry` entries are inserted under
their uuid, all other types are skipped (not inserted). -/
def buildGeomMap (gs : List JGeom) : List (String × GeomKind) :=
  gs.foldl
    (fun m g =>
      match g.uuid, g.gtype with
      | some u, some t =>
          if u = "" ∨ t = "" then m
          else if t = "BoxGeometry" then mapSet m u GeomKind.box
          else if t = "SphereGeometry" then mapSet m u GeomKind.sphere
          else m
      | _, _ => m)
    []

/-- JSON scene-graph node (`importScene.tsx` dispatches on these fields).
`material` is carried for completeness but no verified property depends on
it (an unresolved material falls back to a default, it never prunes the
mesh).  Numeric camera parameters other than `fov` are omitted. -/
inductive JNode where
  | node (jtype : Option String) (name : Option String) (uuid : Option String)
      (fov : Option ℚ) (geometry : Option String) (material : Option String)
      (target : Option String) (children : List JNode)
deriving Repr

/-- Field accessor for the node's `type` tag. -/
def JNode.jtype : JNode → Option String
  | .node t _ _ _ _ _ _ _ => t

/-- Field accessor for the node's `name`. -/
def JNode.name : JNode → Option String
  | .node _ nm _ _ _ _ _ _ => nm

/-- Field accessor for the node's `uuid`. -/
def JNode.uuid : JNode → Option String
  | .node _ _ u _ _ _ _ _ => u

/-- Field accessor for the node's `fov`. -/
def JNode.fov : JNode → Option ℚ
  | .node _ _ _ f _ _ _ _ => f

/-- Field accessor for the node's `geometry` uuid reference. -/
def JNode.geometry : JNode → Option String
  | .node _ _ _ _ g _ _ _ => g

/-- Field accessor for the node's `target` uuid reference. -/
def JNode.target : JNode → Option String
  | .node _ _ _ _ _ _ tg _ => tg

/-- Field accessor for the node's `children`. -/
def JNode.children : JNode → List JNode
  | .node _ _ _ _ _ _ _ cs => cs

/-- Reference a light's `target` property holds after import: either the
materialized document node with the given uuid, or the `k`-th synthetic
placeholder attached to the scene root. -/
inductive LTarget where
  | node (uuid : String)
  | placeholder (idx : ℕ)
deriving DecidableEq, Repr

/-- Materialized runtime object node.  Lights that registered a pending
target binding carry the index of their entry in the `pendingTargets`
list (`pendingIdx`); the binding is resolved after the full traversal.
There is no camera constructor: `buildObject` never materializes a camera
(cameras are handled only at the root-children level). -/
inductive RNode where
  | mesh (name : String) (children : List RNode)
  | ambient (name : String)
  | dirLight (name : String) (pendingIdx : Option ℕ) (children : List RNode)
  | pointLight (name : String) (children : List RNode)
  | spotLight (name : String) (pendingIdx : Option ℕ) (children : List RNode)
  | container (name : String) (children : List RNode)
deriving Repr

/-- Traversal state of the importer: the `objectMap` uuid keys registered
so far and the `pendingTargets` uuids pushed so far (in push order). -/
structure BSt where
  objectMap : List String
  pending : List String
deriving DecidableEq, Repr

/-- Registration `if (node.uuid) objectMap.set(node.uuid, obj)`: the key is
recorded when the uuid field is truthy. -/
def register (u : Option String) (st : BSt) : BSt :=
  if jsTruthyStr u then { st with objectMap := st.objectMap ++ u.toList }
  else st

/-- Push of a pending light-target binding
(`if (typeof node.target === 'string') pendingTargets.push(...)`); returns
the index the entry receives in the `pendingTargets` list. -/
def pushPending (tg : Option String) (st : BSt) : Option ℕ × BSt :=
  match tg with
  | some u => (some st.pending.length, { st with pending := st.pending ++ [u] })
  | none => (none, st)

mutual
/-- Embedding of `buildObject` (`importScene.tsx` lines 146-261).  A `Mesh`
whose geometry uuid does not resolve in the geometry table yields `null`
(before touching state); a `PerspectiveCamera` yields `null`; lights
materialize (directional and spot lights push their pending target binding
before recursing into children); every other type becomes a generic named
container.  Each materialized node with a truthy uuid is registered in the
object map after its children are built. -/
def buildObject (gm : List (String × GeomKind)) :
    JNode → BSt → Option RNode × BSt
  | .node t nm u _ g _ tg cs, st =>
    if t = some "Mesh" then
      match g.bind (mapGet gm) with
      | none => (none, st)
      | some _ =>
          let (rs, st1) := buildChildren gm cs st
          (some (.mesh (nm.getD "Mesh") rs), register u st1)
    else if t = some "PerspectiveCamera" then (none, st)
    else if t = some "AmbientLight" then
      (some (.ambient (nm.getD "AmbientLight")), register u st)
    else if t = some "DirectionalLight" then
      let (pidx, st1) := pushPending tg st
      let (rs, st2) := buildChildren gm cs st1
      (some (.dirLight (nm.getD "DirectionalLight") pidx rs), register u st2)
    else if t = some "PointLight" then
      let (rs, st1) := buildChildren gm cs st
      (some (.pointLight (nm.getD "PointLight") rs), register u st1)
    else if t = some "SpotLight" then
      let (pidx, st1) := pushPending tg st
      let (rs, st2) := buildChildren gm cs st1
      (some (.spotLight (nm.getD "SpotLight") pidx rs), register u st2)
    else
      let fallback :=
        match t with
        | some s => if s = "" then "Object3D" else s
        | none => "Object3D"
      let (rs, st1) := buildChildren gm cs st
      (some (.container (nm.getD fallback) rs), register u st1)
/-- Child loop of `buildObject`: each child is built in order and appended
when non-null. -/
def buildChildren (gm : List (String × GeomKind)) :
    List JNode → BSt → List RNode × BSt
  | [], st => ([], st)
  | c :: rest, st =>
      let (r, st1) := buildObject gm c st
      let (rs, st2) := buildChildren gm rest st1
      (r.toList ++ rs, st2)
end

/-- Materialized scene camera (`buildCamera`, `importScene.tsx` lines
132-141): name defaulting to `Camera` and `fov` defaulting to 50 (aspect,
near and far are carried by the code but no claim depends on them). -/
structure RCam where
  name : String
  fov : ℚ
deriving DecidableEq, Repr

/-- Embedding of `buildCamera`. -/
def buildCamera (n : JNode) : RCam :=
  ⟨n.name.getD "Camera", n.fov.getD 50⟩

/-- Embedding of the root-children loop (`importScene.tsx` lines 274-286):
a child whose `type` is `PerspectiveCamera` becomes the scene camera if
none was chosen yet and is otherwise skipped; every other child is built
via `buildObject` and collected when non-null. -/
def rootPass (gm : List (String × GeomKind)) :
    List JNode → Option RCam → BSt → Option RCam × List RNode × BSt
  | [], cam, st => (cam, [], st)
  | c :: rest, cam, st =>
    if c.jtype = some "PerspectiveCamera" then
      let cam1 :=
        match cam with
        | some c0 => some c0
        | none => some (buildCamera c)
      rootPass gm rest cam1 st
    else
      let (r, st1) := buildObject gm c st
      let (cam2, rs, st2) := rootPass gm rest cam st1
      (cam2, r.toList ++ rs, st2)

/-- Embedding of the pending-target resolution loop
(`importScene.tsx` lines 289-300).  For each pending entry in push order:
if the uuid resolves in the object map the light's target becomes that
node; otherwise a fresh placeholder (numbered in creation order, starting
at the given counter) is attached to the scene and becomes the target.
Returns the per-entry target assignments and the final placeholder count. -/
def resolvePending (keys : List String) : List String → ℕ → List LTarget × ℕ
  | [], k => ([], k)
  | u :: rest, k =>
    if u ∈ keys then
      let (asn, k1) := resolvePending keys rest k
      (LTarget.node u :: asn, k1)
    else
      let (asn, k1) := resolvePending keys rest (k + 1)
      (LTarget.placeholder k :: asn, k1)

/-- Scene-description block (`document.scene ?? document`): the
`geometries` array and the root `object` tree (`materials` are carried by
the code but no verified property depends on them). -/
structure JBlock where
  geometries : List JGeom
  object : Option JNode
deriving Repr

/-- Materialized scene returned by the importer: the chosen camera (if
any), the number of synthetic light-target placeholders attached to the
root, the per-pending-entry target assignments, and the materialized
document children in order. -/
structure Scene where
  camera : Option RCam
  phCount : ℕ
  assignments : List LTarget
  objects : List RNode
deriving Repr

/-- Child slot of the returned scene root, tagging which of the three
`scene.add` call sites produced it. -/
inductive SceneChild where
  | ph (k : ℕ)
  | cam (c : RCam)
  | obj (n : RNode)
deriving Repr

/-- Children of the returned scene root in insertion order
(`importScene.tsx` lines 289-304): first the placeholders created by the
pending-target loop, then the chosen camera (if any), then the
materialized document children. -/
def Scene.childrenList (s : Scene) : List SceneChild :=
  (List.range s.phCount).map SceneChild.ph ++
    (s.camera.map SceneChild.cam).toList ++ s.objects.map SceneChild.obj

/-- Embedding of the importer entry point (`importScene.tsx` lines
28-307) on a scene block: build the geometry table, run the root-children
pass, then resolve pending light targets. -/
def importScene (b : JBlock) : Scene :=
  let gm := buildGeomMap b.geometries
  match b.object with
  | none => ⟨none, 0, [], []⟩
  | some root =>
      let (cam, objs, st) := rootPass gm root.children none ⟨[], []⟩
      let (asn, k) := resolvePending st.objectMap st.pending 0
      ⟨cam, k, asn, objs⟩

mutual
/-- Uuids declared anywhere in a document node tree. -/
def JNode.uuids : JNode → List String
  | .node _ _ u _ _ _ _ cs => u.toList ++ uuidsList cs
/-- Uuids declared in a forest of document nodes. -/
def uuidsList : List JNode → List String
  | [] => []
  | c :: rest => c.uuids ++ uuidsList rest
end

/-- Uuids declared by scene-graph nodes anywhere in the block's object
tree. -/
def allUuids (b : JBlock) : List String :=
  match b.object with
  | none => []
  | some r => r.uuids

/-- Pending target bindings collected while importing the block, in push
order. -/
def pendingOf (b : JBlock) : List String :=
  match b.object with
  | none => []
  | some root =>
      (rootPass (buildGeomMap b.geometries) root.children none ⟨[], []⟩).2.2.pending

/-- C6: for every object, target vector, and easing function with
`ease 0 = 0` and `ease 1 = 1`, the position tween of
`ObjectWrapper.position` equals the pre-call position at progress
fraction 0 and equals the target exactly at completion. -/
theorem claim_C6_position_endpoints (start t : V3 ℚ) (ease : ℚ → ℚ)
    (h0 : ease 0 = 0) (h1 : ease 1 = 1) :
    positionAt start (.vec t) ease 0 = start ∧
      positionAt start (.vec t) ease 1 = t := by
  obtain ⟨sx, sy, sz⟩ := start
  obtain ⟨tx, ty, tz⟩ := t
  constructor
  · simp [positionAt, V3.lerpVectors, getVector3, h0]
  · simp only [positionAt, V3.lerpVectors, getVector3, h1, V3.mk.injEq]
    refine ⟨by ring, by ring, by ring⟩

/-- Witness for C6 at a concrete input with the default ease. -/
theorem claim_C6_witness :
    easeInOutCubicQ 0 = 0 ∧ easeInOutCubicQ 1 = 1 ∧
      (positionAt ⟨1, 2, 3⟩ (.vec ⟨4, 5, 6⟩) easeInOutCubicQ 0 = ⟨1, 2, 3⟩ ∧
        positionAt ⟨1, 2, 3⟩ (.vec ⟨4, 5, 6⟩) easeInOutCubicQ 1 = ⟨4, 5, 6⟩) :=
  ⟨by norm_num [easeInOutCubicQ], by norm_num [easeInOutCubicQ],
    claim_C6_position_endpoints ⟨1, 2, 3⟩ ⟨4, 5, 6⟩ easeInOutCubicQ
      (by norm_num [easeInOutCubicQ]) (by norm_num [easeInOutCubicQ])⟩

/-- C5: for every object and non-zero scalar amount, the two-phase
`select` pulse (scale multiplied up by the amount, then divided back by the
same amount) restores the scale it started from, for any easing functions
that reach 1 at completion. -/
theorem claim_C5_select_restores_scale (s : V3 ℚ) (a : ℚ) (e1 e2 : ℚ → ℚ)
    (ha : a ≠ 0) (h1 : e1 1 = 1) (h2 : e2 1 = 1) :
    selectFinal s a e1 e2 = s := by
  obtain ⟨x, y, z⟩ := s
  simp only [selectFinal, scaledivFinal, scalemulFinal, scaleAt,
    V3.lerpVectors, getVector3, V3.mul, V3.div, h1, h2, V3.mk.injEq]
  refine ⟨?_, ?_, ?_⟩ <;> field_simp

/-- Witness for C5 at a concrete input with the default eases. -/
theorem claim_C5_witness :
    (2 : ℚ) ≠ 0 ∧ easeInOutCubicQ 1 = 1 ∧
      selectFinal ⟨3, 4, 5⟩ 2 easeInOutCubicQ easeInOutCubicQ = ⟨3, 4, 5⟩ :=
  ⟨by norm_num, by norm_num [easeInOutCubicQ],
    claim_C5_select_restores_scale ⟨3, 4, 5⟩ 2 easeInOutCubicQ easeInOutCubicQ
      (by norm_num) (by norm_num [easeInOutCubicQ])
      (by norm_num [easeInOutCubicQ])⟩

/-- C4: for every requested field of view `f`, `zoom` re-derives the
projection matrix after every per-step fov mutation, and at completion
(with any easing reaching 1) the fov equals `f` clamped to `[1, 179]`,
that is `max 1 (min 179 f)`. -/
theorem claim_C4_zoom_clamps (c : Cam) (f : ℚ) (ease : ℚ → ℚ)
    (h1 : ease 1 = 1) :
    (∀ u, (zoomAt c f ease u).projFovBasis = (zoomAt c f ease u).fov) ∧
      (zoomAt c f ease 1).fov = max 1 (min 179 f) := by
  constructor
  · intro u
    rfl
  · simp only [zoomAt, updateProjectionMatrix, zoomClamp, h1, mul_one]
    ring

/-- Witness for C4: requesting fov 500 converges to 179 and requesting
-50 converges to 1, with the default ease and projection re-derivation
holding at an interior step. -/
theorem claim_C4_witness :
    easeInOutCubicQ 1 = 1 ∧
      (zoomAt ⟨50, 50⟩ 500 easeInOutCubicQ 1).fov = 179 ∧
      (zoomAt ⟨50, 50⟩ (-50) easeInOutCubicQ 1).fov = 1 ∧
      (zoomAt ⟨50, 50⟩ 500 easeInOutCubicQ (1 / 4)).projFovBasis =
        (zoomAt ⟨50, 50⟩ 500 easeInOutCubicQ (1 / 4)).fov := by
  have he : easeInOutCubicQ 1 = 1 := by norm_num [easeInOutCubicQ]
  refine ⟨he, ?_, ?_, ?_⟩
  · rw [(claim_C4_zoom_clamps ⟨50, 50⟩ 500 easeInOutCubicQ he).2]
    norm_num
  · rw [(claim_C4_zoom_clamps ⟨50, 50⟩ (-50) easeInOutCubicQ he).2]
    norm_num
  · exact (claim_C4_zoom_clamps ⟨50, 50⟩ 500 easeInOutCubicQ he).1 (1 / 4)

/-- C10: every input that is neither a number, nor a `Vector3`, nor an
array of exactly three elements coerces to the zero vector, so using it as
the target of the `position` or `scale` tween animates the object to the
origin at completion. -/
theorem claim_C10_non_coercible_goes_to_origin (v : PV)
    (h : v.coercible = false) (start : V3 ℚ) (ease : ℚ → ℚ)
    (h1 : ease 1 = 1) :
    getVector3 v = V3.zero ∧ positionAt start v ease 1 = V3.zero ∧
      scaleAt start v ease 1 = V3.zero := by
  have hz : getVector3 v = V3.zero := by
    cases v with
    | num q => simp [PV.coercible] at h
    | vec w => simp [PV.coercible] at h
    | arr xs =>
        simp only [PV.coercible, decide_eq_false_iff_not] at h
        simp [getVector3, h]
    | jsNull => rfl
    | jsObj => rfl
  obtain ⟨sx, sy, sz⟩ := start
  refine ⟨hz, ?_, ?_⟩ <;>
    simp only [positionAt, scaleAt, hz, V3.lerpVectors, V3.zero, h1,
      V3.mk.injEq] <;>
    refine ⟨by ring, by ring, by ring⟩

/-- Witness for C10 on a two-element array, `null`, and an arbitrary
object, with the default ease. -/
theorem claim_C10_witness :
    (PV.arr [7, 8]).coercible = false ∧ PV.jsNull.coercible = false ∧
      PV.jsObj.coercible = false ∧ easeInOutCubicQ 1 = 1 ∧
      getVector3 (.arr [7, 8]) = V3.zero ∧
      positionAt ⟨1, 2, 3⟩ (.arr [7, 8]) easeInOutCubicQ 1 = V3.zero ∧
      positionAt ⟨1, 2, 3⟩ .jsNull easeInOutCubicQ 1 = V3.zero ∧
      scaleAt ⟨1, 2, 3⟩ .jsObj easeInOutCubicQ 1 = V3.zero := by
  have he : easeInOutCubicQ 1 = 1 := by norm_num [easeInOutCubicQ]
  have h2 := claim_C10_non_coercible_goes_to_origin (.arr [7, 8]) (by decide)
    ⟨1, 2, 3⟩ easeInOutCubicQ he
  have h3 := claim_C10_non_coercible_goes_to_origin .jsNull (by decide)
    ⟨1, 2, 3⟩ easeInOutCubicQ he
  have h4 := claim_C10_non_coercible_goes_to_origin .jsObj (by decide)
    ⟨1, 2, 3⟩ easeInOutCubicQ he
  exact ⟨by decide, by decide, by decide, he, h2.1, h2.2.1, h3.2.1, h4.2.2⟩

/-- C2 counterexample: two `load()` calls for the same path issued while
the first is still in flight (the cache is only populated on completion)
each take the cache-miss branch, so TWO external fetches are issued for
the path — the claim that no second fetch is issued is false. -/
theorem claim_C2_counterexample :
    fetchCount (loadGLTF "a" 2 (loadGLTF "a" 1 LoaderSt.empty)) "a" = 2 ∧
      fetchCount (loadGLTF "a" 2 (loadGLTF "a" 1 LoaderSt.empty)) "a" ≠ 1 := by
  constructor
  · rfl
  · decide

/-- C2 amended: deduplication applies only once the first load of the path
has completed: a later `load()` call for a path whose fetch has completed
issues no further external fetch, and its callback is scheduled on the next
tick with exactly the resource stored in the cache by the first fetch, so
both callers receive the identical cached resource. -/
theorem claim_C2_amended_dedup_after_completion (path : String)
    (cb1 cb2 : ℕ) (r : ℕ) :
    fetchCount (loadGLTF path cb2
        (fetchSuccess path cb1 r (loadGLTF path cb1 LoaderSt.empty))) path = 1 ∧
      (loadGLTF path cb2
        (fetchSuccess path cb1 r (loadGLTF path cb1 LoaderSt.empty))).delivered
        = [(cb1, r)] ∧
      (loadGLTF path cb2
        (fetchSuccess path cb1 r (loadGLTF path cb1 LoaderSt.empty))).deferred
        = [(cb2, r)] := by
  simp [loadGLTF, fetchSuccess, fetchCount, mapGet, mapSet, LoaderSt.empty,
    List.find?]

/-- Characters rendered by `renderNat` are decimal digits, never the
separator character. -/
theorem renderNat_no_dash (n : ℕ) : ∀ ch ∈ renderNat n, ch ≠ '-' := by
  intro ch hch
  simp only [renderNat, List.mem_map, List.mem_reverse] at hch
  obtain ⟨d, hd, rfl⟩ := hch
  have hlt : d < 10 := Nat.digits_lt_base (by norm_num) hd
  interval_cases d <;> decide

/-- Distinct decimal digits render to distinct characters. -/
theorem digitChar_inj {d1 d2 : ℕ} (h1 : d1 < 10) (h2 : d2 < 10)
    (h : Char.ofNat (48 + d1) = Char.ofNat (48 + d2)) : d1 = d2 := by
  interval_cases d1 <;> interval_cases d2 <;> revert h <;> decide

/-- Digit-character rendering is injective on lists of decimal digits. -/
theorem mapDigit_inj : ∀ (l1 l2 : List ℕ), (∀ d ∈ l1, d < 10) →
    (∀ d ∈ l2, d < 10) →
    l1.map (fun d => Char.ofNat (48 + d)) = l2.map (fun d => Char.ofNat (48 + d)) →
    l1 = l2
  | [], [], _, _, _ => rfl
  | [], _ :: _, _, _, h => by simp at h
  | _ :: _, [], _, _, h => by simp at h
  | a :: l1, b :: l2, ha, hb, h => by
      simp only [List.map_cons, List.cons.injEq] at h
      have hd := digitChar_inj (ha a (by simp)) (hb b (by simp)) h.1
      have ih := mapDigit_inj l1 l2 (fun d hd => ha d (by simp [hd]))
        (fun d hd => hb d (by simp [hd])) h.2
      simp [hd, ih]

/-- Decimal rendering of counter values is injective. -/
theorem renderNat_inj {m n : ℕ} (h : renderNat m = renderNat n) : m = n := by
  have hm : ∀ d ∈ (Nat.digits 10 m).reverse, d < 10 := fun d hd =>
    Nat.digits_lt_base (by norm_num) (List.mem_reverse.mp hd)
  have hn : ∀ d ∈ (Nat.digits 10 n).reverse, d < 10 := fun d hd =>
    Nat.digits_lt_base (by norm_num) (List.mem_reverse.mp hd)
  have hrev := mapDigit_inj _ _ hm hn h
  have hdig : Nat.digits 10 m = Nat.digits 10 n :=
    List.reverse_injective hrev
  have := congrArg (Nat.ofDigits 10) hdig
  rwa [Nat.ofDigits_digits, Nat.ofDigits_digits] at this

/-- Splitting a character list at a separator absent from both leading
blocks is unambiguous. -/
theorem sep_split : ∀ (a1 a2 b1 b2 : List Char), '-' ∉ a1 → '-' ∉ a2 →
    a1 ++ '-' :: b1 = a2 ++ '-' :: b2 → a1 = a2 ∧ b1 = b2
  | [], [], b1, b2, _, _, h => by simpa using h
  | [], c :: a2, b1, b2, _, h2, h => by
      simp only [List.nil_append, List.cons_append, List.cons.injEq] at h
      exact absurd (h.1 ▸ List.mem_cons_self c a2) (h.1 ▸ h2)
  | c :: a1, [], b1, b2, h1, _, h => by
      simp only [List.nil_append, List.cons_append, List.cons.injEq] at h
      exact absurd (h.1 ▸ List.mem_cons_self c a1) (h.1.symm ▸ h1)
  | c1 :: a1, c2 :: a2, b1, b2, h1, h2, h => by
      simp only [List.cons_append, List.cons.injEq] at h
      have ih := sep_split a1 a2 b1 b2 (fun hm => h1 (List.mem_cons_of_mem c1 hm))
        (fun hm => h2 (List.mem_cons_of_mem c2 hm)) h.2
      exact ⟨by simp [h.1, ih.1], ih.2⟩

/-- Two generated ids agree only if they render the same counter value:
the rendered counter is the segment after the last separator. -/
theorem createIdStr_counter_inj {p1 p2 : List Char} {n1 n2 : ℕ}
    (h : createIdStr p1 n1 = createIdStr p2 n2) : n1 = n2 := by
  have hrev := congrArg List.reverse h
  simp only [createIdStr, List.reverse_append, List.reverse_cons,
    List.append_assoc, List.singleton_append] at hrev
  have hnd1 : '-' ∉ (renderNat n1).reverse := fun hm =>
    renderNat_no_dash n1 '-' (List.mem_reverse.mp hm) rfl
  have hnd2 : '-' ∉ (renderNat n2).reverse := fun hm =>
    renderNat_no_dash n2 '-' (List.mem_reverse.mp hm) rfl
  have hs := sep_split _ _ _ _ hnd1 hnd2 hrev
  exact renderNat_inj (List.reverse_injective hs.1)

/-- Ids generated later in a run always use a strictly larger counter. -/
theorem mem_runCreateIds : ∀ (ps : List (List Char)) (c : ℕ) (s : List Char),
    s ∈ runCreateIds c ps → ∃ p n, c < n ∧ s = createIdStr p n
  | [], c, s, h => by simp [runCreateIds] at h
  | p :: rest, c, s, h => by
      simp only [runCreateIds, List.mem_cons] at h
      rcases h with h | h
      · exact ⟨p, c + 1, Nat.lt_succ_self c, h⟩
      · obtain ⟨p', n, hn, hs⟩ := mem_runCreateIds rest (c + 1) s h
        exact ⟨p', n, by omega, hs⟩

/-- C9: every finite sequence of `FrameCache.createId` calls, with
arbitrary prefixes, returns pairwise distinct id strings: the shared
counter increments on every call, the rendered counter value is the
segment after the id's last separator, and rendering is injective, so no
two calls collide even across different prefixes. -/
theorem claim_C9_createId_unique (c : ℕ) (ps : List (List Char)) :
    (runCreateIds c ps).Pairwise (fun a b => a ≠ b) := by
  induction ps generalizing c with
  | nil => simp [runCreateIds]
  | cons p rest ih =>
      refine List.Pairwise.cons ?_ (ih (c + 1))
      intro s hs heq
      obtain ⟨p', n, hn, rfl⟩ := mem_runCreateIds rest (c + 1) s hs
      have := createIdStr_counter_inj heq
      omega

/-- Mesh branch of `buildObject` when the geometry uuid does not resolve:
the mesh yields `null` and the traversal state is untouched. -/
theorem buildObject_unresolved_mesh (gm : List (String × GeomKind))
    (nm u : Option String) (fv : Option ℚ) (g m tg : Option String)
    (cs : List JNode) (st : BSt) (hg : g.bind (mapGet gm) = none) :
    buildObject gm (.node (some "Mesh") nm u fv g m tg cs) st = (none, st) := by
  simp [buildObject, hg]

/-- Dropping a child that builds to `null` without touching state leaves
the materialized child list and final state unchanged. -/
theorem buildChildren_skip_null (gm : List (String × GeomKind))
    (mn : JNode) (hm : ∀ st, buildObject gm mn st = (none, st)) :
    ∀ (xs ys : List JNode) (st : BSt),
      buildChildren gm (xs ++ mn :: ys) st = buildChildren gm (xs ++ ys) st
  | [], ys, st => by simp [buildChildren, hm st]
  | x :: xs, ys, st => by
      simp only [List.cons_append, buildChildren, List.append_eq]
      rw [buildChildren_skip_null gm mn hm xs ys]

/-- C8: a mesh node whose `geometry` uuid does not resolve in the geometry
table built from the document's geometries array is omitted from the
materialized graph: it builds to `null`, and its parent's materialized
child list (hence child count) is exactly the one obtained without it; the
mesh is not replaced by a default. -/
theorem claim_C8_unresolved_geometry_mesh_omitted (gs : List JGeom)
    (nm u : Option String) (fv : Option ℚ) (g m tg : Option String)
    (cs xs ys : List JNode) (st st2 : BSt)
    (hg : g.bind (mapGet (buildGeomMap gs)) = none) :
    buildObject (buildGeomMap gs) (.node (some "Mesh") nm u fv g m tg cs) st
        = (none, st) ∧
      buildChildren (buildGeomMap gs)
          (xs ++ JNode.node (some "Mesh") nm u fv g m tg cs :: ys) st2 =
        buildChildren (buildGeomMap gs) (xs ++ ys) st2 ∧
      ((buildChildren (buildGeomMap gs)
          (xs ++ JNode.node (some "Mesh") nm u fv g m tg cs :: ys) st2).1).length =
        ((buildChildren (buildGeomMap gs) (xs ++ ys) st2).1).length := by
  have h1 := fun st => buildObject_unresolved_mesh (buildGeomMap gs)
    nm u fv g m tg cs st hg
  have h2 := buildChildren_skip_null (buildGeomMap gs) _ h1 xs ys st2
  exact ⟨h1 st, h2, by rw [h2]⟩

/-- Witness for C8: a document with one box geometry `G1`; a mesh
referencing the absent uuid `G2` placed between two containers is left out
of the materialized child list, which keeps exactly the two containers. -/
theorem claim_C8_witness :
    (some "G2").bind (mapGet (buildGeomMap [⟨some "G1", some "BoxGeometry"⟩]))
        = none ∧
      (buildChildren (buildGeomMap [⟨some "G1", some "BoxGeometry"⟩])
          ([JNode.node (some "Group") (some "a") none none none none none []] ++
            JNode.node (some "Mesh") none none none (some "G2") none none [] ::
            [JNode.node (some "Group") (some "b") none none none none none []])
          ⟨[], []⟩).1.length = 2 := by
  refine ⟨rfl, ?_⟩
  have h := (claim_C8_unresolved_geometry_mesh_omitted
    [⟨some "G1", some "BoxGeometry"⟩] none none none (some "G2") none none []
    [JNode.node (some "Group") (some "a") none none none none none []]
    [JNode.node (some "Group") (some "b") none none none none none []]
    ⟨[], []⟩ ⟨[], []⟩ rfl).2.2
  rw [h]
  rfl

/-- Test for a camera-typed document node, the root-children check
`childNode?.type === 'PerspectiveCamera'`. -/
def isCamNode (c : JNode) : Bool := c.jtype = some "PerspectiveCamera"

/-- Test for a camera slot among the scene root's children. -/
def isCamChild : SceneChild → Bool
  | .cam _ => true
  | _ => false

/-- Once a camera has been chosen, the remaining root-children pass never
replaces it. -/
theorem rootPass_camera_some (gm : List (String × GeomKind)) :
    ∀ (cs : List JNode) (c0 : RCam) (st : BSt),
      (rootPass gm cs (some c0) st).1 = some c0
  | [], _, _ => rfl
  | c :: rest, c0, st => by
      by_cases hc : c.jtype = some "PerspectiveCamera" <;>
        simp only [rootPass, hc, if_true, if_false, reduceIte] <;>
        exact rootPass_camera_some gm rest c0 _

/-- The root-children pass chooses exactly the first camera-typed child
(when starting with no camera chosen). -/
theorem rootPass_camera_none (gm : List (String × GeomKind)) :
    ∀ (cs : List JNode) (st : BSt),
      (rootPass gm cs none st).1 = (cs.find? isCamNode).map buildCamera
  | [], _ => rfl
  | c :: rest, st => by
      by_cases hc : c.jtype = some "PerspectiveCamera"
      · have hb : isCamNode c = true := by simp [isCamNode, hc]
        simp only [rootPass, hc, reduceIte, List.find?_cons_of_pos _ hb,
          Option.map_some]
        exact rootPass_camera_some gm rest (buildCamera c) st
      · have hb : isCamNode c = false := by simp [isCamNode, hc]
        have hfind : (c :: rest).find? isCamNode = rest.find? isCamNode :=
          List.find?_cons_of_neg rest (by simp [hb])
        rw [hfind]
        simp only [rootPass, hc, reduceIte]
        exact rootPass_camera_none gm rest _

/-- Placeholder slots are never camera slots. -/
theorem countP_camChild_ph (l : List ℕ) :
    (l.map SceneChild.ph).countP isCamChild = 0 := by
  induction l with
  | nil => rfl
  | cons a l ih => simp [List.countP_cons, isCamChild, ih]

/-- Materialized object slots are never camera slots. -/
theorem countP_camChild_obj (l : List RNode) :
    (l.map SceneChild.obj).countP isCamChild = 0 := by
  induction l with
  | nil => rfl
  | cons a l ih => simp [List.countP_cons, isCamChild, ih]

/-- C1 amended: for every scene document whose root has at least one
camera node among its direct children, the importer chooses exactly one
camera — the first encountered among the root's direct children — and
inserts it immediately after the synthetic light-target placeholder nodes
(and before every materialized document child); when no placeholder was
created it is the very first child.  Camera-typed nodes are never
materialized by `buildObject`, so every other camera node from the
document is absent from the returned tree. -/
theorem claim_C1_amended_first_camera (b : JBlock) (root camNode : JNode)
    (hroot : b.object = some root)
    (hfind : root.children.find? isCamNode = some camNode) :
    (importScene b).camera = some (buildCamera camNode) ∧
      (importScene b).childrenList.countP isCamChild = 1 ∧
      ((importScene b).childrenList)[(importScene b).phCount]? =
        some (SceneChild.cam (buildCamera camNode)) ∧
      ((importScene b).phCount = 0 →
        (importScene b).childrenList.head? =
          some (SceneChild.cam (buildCamera camNode))) ∧
      (∀ (n : JNode) (st : BSt), n.jtype = some "PerspectiveCamera" →
        buildObject (buildGeomMap b.geometries) n st = (none, st)) := by
  rcases hr : rootPass (buildGeomMap b.geometries) root.children none ⟨[], []⟩
    with ⟨cam, objs, st⟩
  rcases ha : resolvePending st.objectMap st.pending 0 with ⟨asn, k⟩
  have hcam : cam = some (buildCamera camNode) := by
    have := rootPass_camera_none (buildGeomMap b.geometries) root.children
      (⟨[], []⟩ : BSt)
    rw [hr, hfind] at this
    simpa using this
  have hs : importScene b = ⟨cam, k, asn, objs⟩ := by
    simp only [importScene, hroot, hr, ha]
  subst hcam
  rw [hs]
  refine ⟨rfl, ?_, ?_, ?_, ?_⟩
  · simp only [Scene.childrenList, List.countP_append, countP_camChild_ph,
      countP_camChild_obj, Option.map_some, Option.toList_some]
    simp [List.countP_cons, isCamChild]
  · simp only [Scene.childrenList, Option.map_some, Option.toList_some]
    have h1 : ((List.range k).map SceneChild.ph).length ≤ k := by simp
    rw [List.append_assoc, List.getElem?_append_right h1]
    simp
  · intro hk
    have hk0 : k = 0 := hk
    subst hk0
    simp [Scene.childrenList]
  · intro n st2 hn
    rcases n with ⟨t, nm, u, fv, g, m, tg, cs⟩
    simp only [JNode.jtype] at hn
    subst hn
    simp [buildObject]

/-- Concrete directional light with an unresolvable target uuid, used to
exhibit the placeholder-before-camera insertion order. -/
def cexLightC1 : JNode :=
  .node (some "DirectionalLight") none (some "L1") none none none (some "nope") []

/-- Concrete camera node with fov 60. -/
def cexCamC1 : JNode :=
  .node (some "PerspectiveCamera") none (some "C1") (some 60) none none none []

/-- Concrete scene block whose root children are a directional light with
an unresolvable target followed by a camera. -/
def cexBlockC1 : JBlock :=
  ⟨[], some (.node (some "Scene") none none none none none none
    [cexLightC1, cexCamC1])⟩

/-- C1 counterexample: importing `cexBlockC1` chooses the camera, but the
placeholder created for the unresolved light target is inserted into the
scene before it, so the camera is the second child, not the very first
child as the claim states. -/
theorem claim_C1_counterexample :
    (importScene cexBlockC1).camera = some ⟨"Camera", 60⟩ ∧
      (importScene cexBlockC1).phCount = 1 ∧
      (importScene cexBlockC1).childrenList.head? = some (SceneChild.ph 0) ∧
      (importScene cexBlockC1).childrenList.head? ≠
        some (SceneChild.cam ⟨"Camera", 60⟩) := by
  refine ⟨rfl, rfl, rfl, ?_⟩
  have hh : (importScene cexBlockC1).childrenList.head? =
      some (SceneChild.ph 0) := rfl
  rw [hh]
  simp

/-- Concrete scene block with two cameras (fov 60 then fov 70) and a
container among the root's direct children, and no light targets. -/
def witBlockC1 : JBlock :=
  ⟨[], some (.node (some "Scene") none none none none none none
    [.node (some "PerspectiveCamera") none (some "C1") (some 60) none none none [],
     .node (some "PerspectiveCamera") none (some "C2") (some 70) none none none [],
     .node (some "Group") (some "g") none none none none none []])⟩

/-- Witness for C1 (amended): with two cameras among the root children and
no unresolved light targets, the first camera (fov 60) is chosen, it is
the very first child, and the camera count of the returned tree is one. -/
theorem claim_C1_witness :
    (importScene witBlockC1).camera = some ⟨"Camera", 60⟩ ∧
      (importScene witBlockC1).childrenList.countP isCamChild = 1 ∧
      (importScene witBlockC1).childrenList.head? =
        some (SceneChild.cam ⟨"Camera", 60⟩) := by
  have h := claim_C1_amended_first_camera witBlockC1
    (.node (some "Scene") none none none none none none
      [.node (some "PerspectiveCamera") none (some "C1") (some 60) none none none [],
       .node (some "PerspectiveCamera") none (some "C2") (some 70) none none none [],
       .node (some "Group") (some "g") none none none none none []])
    (.node (some "PerspectiveCamera") none (some "C1") (some 60) none none none [])
    rfl rfl
  exact ⟨h.1, h.2.1, h.2.2.2.1 rfl⟩

/-- Registration only ever adds the registered node's own uuid key. -/
theorem register_mem {w : String} (u0 : Option String) (st : BSt)
    (h : w ∈ (register u0 st).objectMap) : w ∈ st.objectMap ∨ w ∈ u0.toList := by
  unfold register at h
  split at h
  · rcases List.mem_append.mp h with h | h
    · exact Or.inl h
    · exact Or.inr h
  · exact Or.inl h

/-- Pushing a pending light-target binding leaves the object map
unchanged. -/
theorem pushPending_objectMap (tg : Option String) (st : BSt) :
    ((pushPending tg st).2).objectMap = st.objectMap := by
  cases tg <;> rfl

mutual
/-- Every object-map key registered while building a node comes either
from the incoming state or from a uuid declared in that node's subtree. -/
theorem buildObject_objectMap_sub (gm : List (String × GeomKind)) :
    ∀ (n : JNode) (st : BSt) (w : String),
      w ∈ ((buildObject gm n st).2).objectMap →
      w ∈ st.objectMap ∨ w ∈ n.uuids
  | .node t nm u fv g m tg cs, st, w => by
    intro hw
    have huuids : (JNode.node t nm u fv g m tg cs).uuids
        = u.toList ++ uuidsList cs := rfl
    rw [huuids]
    have hreg : ∀ st1 : BSt, w ∈ (register u st1).objectMap →
        (∀ w2, w2 ∈ st1.objectMap → w2 ∈ st.objectMap ∨ w2 ∈ uuidsList cs) →
        w ∈ st.objectMap ∨ w ∈ u.toList ++ uuidsList cs := by
      intro st1 hw1 hsub
      rcases register_mem u st1 hw1 with h | h
      · rcases hsub w h with h' | h'
        · exact Or.inl h'
        · exact Or.inr (List.mem_append.mpr (Or.inr h'))
      · exact Or.inr (List.mem_append.mpr (Or.inl h))
    simp only [buildObject] at hw
    by_cases h1 : t = some "Mesh"
    · rw [if_pos h1] at hw
      rcases hg : g.bind (mapGet gm) with _ | gk
      · rw [hg] at hw
        exact Or.inl hw
      · rw [hg] at hw
        rcases hbc : buildChildren gm cs st with ⟨rs, st1⟩
        rw [hbc] at hw
        simp only at hw
        exact hreg st1 hw (fun w2 h2 =>
          buildChildren_objectMap_sub gm cs st w2 (by rw [hbc]; exact h2))
    · rw [if_neg h1] at hw
      by_cases h2 : t = some "PerspectiveCamera"
      · rw [if_pos h2] at hw
        exact Or.inl hw
      · rw [if_neg h2] at hw
        by_cases h3 : t = some "AmbientLight"
        · rw [if_pos h3] at hw
          simp only at hw
          rcases register_mem u st hw with h | h
          · exact Or.inl h
          · exact Or.inr (List.mem_append.mpr (Or.inl h))
        · rw [if_neg h3] at hw
          by_cases h4 : t = some "DirectionalLight"
          · rw [if_pos h4] at hw
            rcases hpp : pushPending tg st with ⟨pidx, stp⟩
            rw [hpp] at hw
            rcases hbc : buildChildren gm cs stp with ⟨rs, st1⟩
            rw [hbc] at hw
            simp only at hw
            have hstp : stp.objectMap = st.objectMap := by
              have := pushPending_objectMap tg st
              rw [hpp] at this
              exact this
            exact hreg st1 hw (fun w2 h2 => by
              have := buildChildren_objectMap_sub gm cs stp w2 (by rw [hbc]; exact h2)
              rwa [hstp] at this)
          · rw [if_neg h4] at hw
            by_cases h5 : t = some "PointLight"
            · rw [if_pos h5] at hw
              rcases hbc : buildChildren gm cs st with ⟨rs, st1⟩
              rw [hbc] at hw
              simp only at hw
              exact hreg st1 hw (fun w2 h2 =>
                buildChildren_objectMap_sub gm cs st w2 (by rw [hbc]; exact h2))
            · rw [if_neg h5] at hw
              by_cases h6 : t = some "SpotLight"
              · rw [if_pos h6] at hw
                rcases hpp : pushPending tg st with ⟨pidx, stp⟩
                rw [hpp] at hw
                rcases hbc : buildChildren gm cs stp with ⟨rs, st1⟩
                rw [hbc] at hw
                simp only at hw
                have hstp : stp.objectMap = st.objectMap := by
                  have := pushPending_objectMap tg st
                  rw [hpp] at this
                  exact this
                exact hreg st1 hw (fun w2 h2 => by
                  have := buildChildren_objectMap_sub gm cs stp w2 (by rw [hbc]; exact h2)
                  rwa [hstp] at this)
              · rw [if_neg h6] at hw
                rcases hbc : buildChildren gm cs st with ⟨rs, st1⟩
                rw [hbc] at hw
                simp only at hw
                exact hreg st1 hw (fun w2 h2 =>
                  buildChildren_objectMap_sub gm cs st w2 (by rw [hbc]; exact h2))
/-- Forest version of `buildObject_objectMap_sub`. -/
theorem buildChildren_objectMap_sub (gm : List (String × GeomKind)) :
    ∀ (l : List JNode) (st : BSt) (w : String),
      w ∈ ((buildChildren gm l st).2).objectMap →
      w ∈ st.objectMap ∨ w ∈ uuidsList l
  | [], st, w => fun hw => Or.inl hw
  | c :: rest, st, w => by
    intro hw
    have hl : uuidsList (c :: rest) = c.uuids ++ uuidsList rest := rfl
    rw [hl]
    simp only [buildChildren] at hw
    rcases hb : buildObject gm c st with ⟨r, st1⟩
    rw [hb] at hw
    rcases hbc : buildChildren gm rest st1 with ⟨rs, st2⟩
    rw [hbc] at hw
    simp only at hw
    rcases buildChildren_objectMap_sub gm rest st1 w (by rw [hbc]; exact hw)
      with h | h
    · rcases buildObject_objectMap_sub gm c st w (by rw [hb]; exact h) with h' | h'
      · exact Or.inl h'
      · exact Or.inr (List.mem_append.mpr (Or.inl h'))
    · exact Or.inr (List.mem_append.mpr (Or.inr h))
end

/-- Every object-map key registered during the root-children pass comes
either from the incoming state or from a uuid declared in the forest. -/
theorem rootPass_objectMap_sub (gm : List (String × GeomKind)) :
    ∀ (cs : List JNode) (cam : Option RCam) (st : BSt) (w : String),
      w ∈ ((rootPass gm cs cam st).2.2).objectMap →
      w ∈ st.objectMap ∨ w ∈ uuidsList cs
  | [], cam, st, w => fun hw => Or.inl hw
  | c :: rest, cam, st, w => by
    intro hw
    have hl : uuidsList (c :: rest) = c.uuids ++ uuidsList rest := rfl
    rw [hl]
    by_cases hc : c.jtype = some "PerspectiveCamera"
    · simp only [rootPass, hc, reduceIte] at hw
      rcases rootPass_objectMap_sub gm rest _ st w hw with h | h
      · exact Or.inl h
      · exact Or.inr (List.mem_append.mpr (Or.inr h))
    · simp only [rootPass, hc, reduceIte] at hw
      rcases hb : buildObject gm c st with ⟨r, st1⟩
      rw [hb] at hw
      rcases hr : rootPass gm rest cam st1 with ⟨cam2, rs, st2⟩
      rw [hr] at hw
      simp only at hw
      rcases rootPass_objectMap_sub gm rest cam st1 w (by rw [hr]; exact hw)
        with h | h
      · rcases buildObject_objectMap_sub gm c st w (by rw [hb]; exact h) with h' | h'
        · exact Or.inl h'
        · exact Or.inr (List.mem_append.mpr (Or.inl h'))
      · exact Or.inr (List.mem_append.mpr (Or.inr h))

/-- The placeholder counter of the resolution loop never decreases. -/
theorem resolvePending_count_le (keys : List String) :
    ∀ (pend : List String) (k0 : ℕ), k0 ≤ (resolvePending keys pend k0).2
  | [], _ => le_refl _
  | u :: rest, k0 => by
    by_cases hu : u ∈ keys
    · rcases h : resolvePending keys rest k0 with ⟨asn, k1⟩
      have hr := resolvePending_count_le keys rest k0
      rw [h] at hr
      simp only [resolvePending, if_pos hu, h]
      exact hr
    · rcases h : resolvePending keys rest (k0 + 1) with ⟨asn, k1⟩
      have hr := resolvePending_count_le keys rest (k0 + 1)
      rw [h] at hr
      simp only [resolvePending, if_neg hu, h]
      simp only at hr ⊢
      omega

/-- A pending entry whose uuid is absent from the object map is assigned a
placeholder target whose index stays below the final placeholder count. -/
theorem resolvePending_spec (keys : List String) :
    ∀ (pend : List String) (k0 i : ℕ) (u : String),
      pend[i]? = some u → u ∉ keys →
      ∃ k, ((resolvePending keys pend k0).1)[i]? =
          some (LTarget.placeholder k) ∧
        k < (resolvePending keys pend k0).2
  | [], k0, i, u => by
    intro hp _
    simp at hp
  | v :: rest, k0, i, u => by
    intro hp hu
    by_cases hv : v ∈ keys
    · rcases h : resolvePending keys rest k0 with ⟨asn, k1⟩
      simp only [resolvePending, if_pos hv, h]
      cases i with
      | zero =>
          simp only [List.getElem?_cons_zero, Option.some.injEq] at hp
          exact absurd (hp ▸ hv) hu
      | succ j =>
          simp only [List.getElem?_cons_succ] at hp
          obtain ⟨k, hk1, hk2⟩ := resolvePending_spec keys rest k0 j u hp hu
          rw [h] at hk1 hk2
          exact ⟨k, by simpa using hk1, by simpa using hk2⟩
    · rcases h : resolvePending keys rest (k0 + 1) with ⟨asn, k1⟩
      simp only [resolvePending, if_neg hv, h]
      cases i with
      | zero =>
          have hr := resolvePending_count_le keys rest (k0 + 1)
          rw [h] at hr
          exact ⟨k0, by simp, by omega⟩
      | succ j =>
          simp only [List.getElem?_cons_succ] at hp
          obtain ⟨k, hk1, hk2⟩ := resolvePending_spec keys rest (k0 + 1) j u hp hu
          rw [h] at hk1 hk2
          exact ⟨k, by simpa using hk1, by simpa using hk2⟩

/-- C7: for every scene document containing a directional or spot light
whose `target` uuid matches no node anywhere in the document (the light's
pending binding is entry `i` of the collected pending-target list), the
importer still assigns that light a target distinct from `undefined`: a
synthetic placeholder node, attached as a child of the returned scene
root. -/
theorem claim_C7_unresolved_target_placeholder (b : JBlock) (i : ℕ)
    (u : String) (hp : (pendingOf b)[i]? = some u) (hu : u ∉ allUuids b) :
    ∃ k, ((importScene b).assignments)[i]? = some (LTarget.placeholder k) ∧
      SceneChild.ph k ∈ (importScene b).childrenList := by
  rcases hb : b.object with _ | root
  · rw [pendingOf, hb] at hp
    simp at hp
  · rcases hr : rootPass (buildGeomMap b.geometries) root.children none ⟨[], []⟩
      with ⟨cam, objs, st⟩
    have hpend : pendingOf b = st.pending := by
      simp only [pendingOf, hb, hr]
    have hkeys : u ∉ st.objectMap := by
      intro hmem
      have hsub := rootPass_objectMap_sub (buildGeomMap b.geometries)
        root.children none ⟨[], []⟩ u (by rw [hr]; exact hmem)
      rcases hsub with h | h
      · simp at h
      · apply hu
        simp only [allUuids, hb]
        rcases root with ⟨t, nm, u0, fv, g, m, tg, cs⟩
        have : JNode.uuids (.node t nm u0 fv g m tg cs)
            = u0.toList ++ uuidsList cs := rfl
        rw [this]
        exact List.mem_append.mpr (Or.inr h)
    rcases ha : resolvePending st.objectMap st.pending 0 with ⟨asn, K⟩
    have hs : importScene b = ⟨cam, K, asn, objs⟩ := by
      simp only [importScene, hb, hr, ha]
    obtain ⟨k, hk1, hk2⟩ := resolvePending_spec st.objectMap st.pending 0 i u
      (hpend ▸ hp) hkeys
    rw [ha] at hk1 hk2
    simp only at hk1 hk2
    refine ⟨k, ?_, ?_⟩
    · rw [hs]
      exact hk1
    · rw [hs]
      apply List.mem_append.mpr
      apply Or.inl
      apply List.mem_append.mpr
      apply Or.inl
      simp only [List.mem_map, List.mem_range]
      exact ⟨k, hk2, rfl⟩

/-- Concrete block for the C7 witness: one directional light (uuid `L1`)
whose target uuid `missing` resolves to no node in the document. -/
def witBlockC7 : JBlock :=
  ⟨[], some (.node (some "Scene") none none none none none none
    [.node (some "DirectionalLight") none (some "L1") none none none
      (some "missing") []])⟩

/-- Witness for C7: importing `witBlockC7` assigns the light's pending
entry a placeholder target that is a child of the returned scene root. -/
theorem claim_C7_witness :
    (pendingOf witBlockC7)[0]? = some "missing" ∧
      "missing" ∉ allUuids witBlockC7 ∧
      ∃ k, ((importScene witBlockC7).assignments)[0]? =
          some (LTarget.placeholder k) ∧
        SceneChild.ph k ∈ (importScene witBlockC7).childrenList :=
  ⟨rfl, by decide,
    claim_C7_unresolved_target_placeholder witBlockC7 0 "missing" rfl
      (by decide)⟩

/-- A vector's length vanishes exactly at the zero vector. -/
theorem V3.length_eq_zero_iff (v : V3 ℝ) : v.length = 0 ↔ v = ⟨0, 0, 0⟩ := by
  obtain ⟨x, y, z⟩ := v
  simp only [V3.length, V3.mk.injEq]
  constructor
  · intro h
    have hnn : (0 : ℝ) ≤ x ^ 2 + y ^ 2 + z ^ 2 := by positivity
    have hsum : x ^ 2 + y ^ 2 + z ^ 2 = 0 := (Real.sqrt_eq_zero hnn).mp h
    refine ⟨?_, ?_, ?_⟩ <;>
      nlinarith [sq_nonneg x, sq_nonneg y, sq_nonneg z]
  · rintro ⟨rfl, rfl, rfl⟩
    simp

/-- Horizontal radius times the cosine of the starting azimuth recovers
the x offset. -/
theorem hypot_mul_cos (x z : ℝ) : hypot x z * Real.cos (atan2 z x) = x := by
  by_cases h : (⟨x, z⟩ : ℂ) = 0
  · have hx : x = 0 ∧ z = 0 := by
      simpa [Complex.ext_iff] using h
    simp [hypot, atan2, hx.1, hx.2]
  · have habs : Complex.abs ⟨x, z⟩ = hypot x z := by
      rw [Complex.abs_apply, Complex.normSq_mk, hypot]
      congr 1
      ring
    rw [atan2, Complex.cos_arg h]
    have hne : hypot x z ≠ 0 := by
      rw [← habs]
      exact Complex.abs.ne_zero h
    rw [habs]
    field_simp

/-- Horizontal radius times the sine of the starting azimuth recovers the
z offset. -/
theorem hypot_mul_sin (x z : ℝ) : hypot x z * Real.sin (atan2 z x) = z := by
  by_cases h : (⟨x, z⟩ : ℂ) = 0
  · have hx : x = 0 ∧ z = 0 := by
      simpa [Complex.ext_iff] using h
    simp [hypot, atan2, hx.1, hx.2]
  · have habs : Complex.abs ⟨x, z⟩ = hypot x z := by
      rw [Complex.abs_apply, Complex.normSq_mk, hypot]
      congr 1
      ring
    rw [atan2, Complex.sin_arg]
    have hne : hypot x z ≠ 0 := by
      rw [← habs]
      exact Complex.abs.ne_zero h
    rw [habs]
    field_simp

/-- C3: for every camera starting at non-zero distance from the resolved
orbit center, `orbit` runs (is not the degenerate no-op), its total
duration is `lap_time * |angle_offset| / 2π`, with `angle_offset = 2π` the
camera position at completion equals the starting position exactly, and
the camera's world height offset from the center is unchanged at every
step of the sweep. -/
theorem claim_C3_orbit_full_revolution (pos0 ctr : V3 ℝ)
    (fov lap_time angle_offset : ℝ) (h : pos0 ≠ ctr) :
    ∃ run, orbit pos0 fov lap_time angle_offset ctr = some run ∧
      run.duration = lap_time * |angle_offset| / (2 * Real.pi) ∧
      (angle_offset = 2 * Real.pi → run.posAt 1 = pos0) ∧
      (∀ u, (run.posAt u).y - ctr.y = pos0.y - ctr.y) := by
  have hrel : V3.sub pos0 ctr ≠ ⟨0, 0, 0⟩ := by
    intro hc
    apply h
    obtain ⟨px, py, pz⟩ := pos0
    obtain ⟨cx, cy, cz⟩ := ctr
    simp only [V3.sub, V3.mk.injEq] at hc ⊢
    refine ⟨by linarith [hc.1], by linarith [hc.2.1], by linarith [hc.2.2]⟩
  have hlen : (V3.sub pos0 ctr).length ≠ 0 := fun hl =>
    hrel (((V3.sub pos0 ctr).length_eq_zero_iff).mp hl)
  simp only [orbit]
  rw [if_neg hlen]
  refine ⟨_, rfl, rfl, ?_, ?_⟩
  · intro hao
    subst hao
    simp only
    rw [if_neg (by norm_num : ¬ (1 : ℝ) ≤ 0), if_pos (le_refl (1 : ℝ))]
    rw [mul_one]
    rw [Real.cos_add_two_pi, Real.sin_add_two_pi]
    have hc := hypot_mul_cos (V3.sub pos0 ctr).x (V3.sub pos0 ctr).z
    have hsn := hypot_mul_sin (V3.sub pos0 ctr).x (V3.sub pos0 ctr).z
    obtain ⟨px, py, pz⟩ := pos0
    obtain ⟨cx, cy, cz⟩ := ctr
    simp only [V3.sub] at hc hsn ⊢
    simp only [V3.mk.injEq]
    refine ⟨by linarith [hc], by ring, by linarith [hsn]⟩
  · intro u
    obtain ⟨px, py, pz⟩ := pos0
    obtain ⟨cx, cy, cz⟩ := ctr
    simp only [V3.sub]
    ring

/-- Witness for C3: a camera at distance 1 from the origin center, with
`lap_time = 4` and a full-revolution `angle_offset = 2π`. -/
theorem claim_C3_witness :
    ((⟨1, 0, 0⟩ : V3 ℝ) ≠ ⟨0, 0, 0⟩) ∧
      (∃ run, orbit ⟨1, 0, 0⟩ 50 4 (2 * Real.pi) ⟨0, 0, 0⟩ = some run ∧
        run.duration = 4 * |2 * Real.pi| / (2 * Real.pi) ∧
        (2 * Real.pi = 2 * Real.pi → run.posAt 1 = ⟨1, 0, 0⟩) ∧
        (∀ u, (run.posAt u).y - (⟨0, 0, 0⟩ : V3 ℝ).y =
          (⟨1, 0, 0⟩ : V3 ℝ).y - (⟨0, 0, 0⟩ : V3 ℝ).y)) :=
  ⟨by simp [V3.mk.injEq],
    claim_C3_orbit_full_revolution ⟨1, 0, 0⟩ ⟨0, 0, 0⟩ 50 4 (2 * Real.pi)
      (by simp [V3.mk.injEq])⟩
